import Mathlib

/-!
Shallow embedding of the analysis core of the shrinkwraprs crate
(src/src/ast.rs and src/src/visibility.rs), together with theorems
checking the specification claims about field selection and
visibility-path normalization and containment.

Conventions of the embedding:
* A `syn::Visibility` becomes the inductive `Visibility`; a `syn::Path`
  inside a restricted visibility is represented by the list of its
  segment identifier strings, the only part of a segment the code reads.
* A `syn::Field` becomes the structure `Field`; each attribute is
  represented by the result of `attr.interpret_meta()` (an
  `Option Meta`), the only view of an attribute the code uses.
* Rust panics are modelled as `Except.error` values carrying a
  `SelectionPanic` tag naming which panic message fired; ordinary
  returns are `Except.ok`.
-/

namespace Shrinkwrap

/-- From src/src/visibility.rs, `enum PathComponent`:
`Inherited` (effectively private), `Pub`, `Crate`, `InSelf`, `InSuper`,
`Mod(String)`. -/
inductive PathComponent where
  | inherited : PathComponent
  | pub : PathComponent
  | crate : PathComponent
  | inSelf : PathComponent
  | inSuper : PathComponent
  | mod : String → PathComponent
deriving DecidableEq, Repr

/-- From src/src/visibility.rs, `enum FieldVisibility`: the containment
verdict (`Visible`, `Restricted`, `CantDetermine`). -/
inductive FieldVisibility where
  | visible : FieldVisibility
  | restricted : FieldVisibility
  | cantDetermine : FieldVisibility
deriving DecidableEq, Repr

/-- A `syn::Visibility`: `Public`, `Crate`, `Inherited`, or
`Restricted` with the path of segment identifiers. -/
inductive Visibility where
  | public : Visibility
  | crate : Visibility
  | inherited : Visibility
  | restricted : List String → Visibility
deriving DecidableEq, Repr

/-- From src/src/visibility.rs, `fn to_path_restricted`: split the
segment list at its first element; a `self` or `super` head becomes its
own leading component, any other head is prefixed by `Pub, Crate`; all
remaining segments become `Mod` components. An empty segment list gives
the empty path. -/
def to_path_restricted (segments : List String) : List PathComponent :=
  match segments with
  | [] => []
  | ident :: rest =>
    let result :=
      if ident = "self" then [PathComponent.inSelf]
      else if ident = "super" then [PathComponent.inSuper]
      else [PathComponent.pub, PathComponent.crate, PathComponent.mod ident]
    result ++ rest.map PathComponent.mod

/-- From src/src/visibility.rs, `fn to_path`: normalize a visibility
into a component path. -/
def to_path (path : Visibility) : List PathComponent :=
  match path with
  | Visibility.public => [PathComponent.pub]
  | Visibility.crate => [PathComponent.pub, PathComponent.crate]
  | Visibility.inherited => [PathComponent.inherited]
  | Visibility.restricted vis => to_path_restricted vis

/-- An opaque literal occurring in attribute metadata
(`syn::Lit`, never inspected beyond its presence). -/
inductive Lit where
  | lit : String → Lit
deriving Repr

mutual
/-- A `syn::Meta`, the interpreted form of an attribute:
a bare word, a list `ident(...)`, or a name-value pair. -/
inductive Meta where
  | word : String → Meta
  | list : String → List NestedMeta → Meta
  | nameValue : String → Lit → Meta

/-- A `syn::NestedMeta`: an element inside a `Meta.list`. -/
inductive NestedMeta where
  | meta : Meta → NestedMeta
  | literal : Lit → NestedMeta
end

/-- A `syn::Field`: its attributes (each given by the result of
`interpret_meta()`), visibility, optional name, and opaque type. -/
structure Field where
  attrs : List (Option Meta)
  vis : Visibility
  ident : Option String
  ty : String

/-- From src/src/ast.rs, `fn is_marked`: a field is marked when some
attribute interprets to a `Meta::List` whose ident is `shrinkwrap` and
whose nested metas collect to exactly one `Meta::Word` equal to
`main_field`. -/
def is_marked (field : Field) : Bool :=
  field.attrs.any fun meta =>
    match meta with
    | some (Meta.list ident nested) =>
      let is_main_field :=
        match nested with
        | [NestedMeta.meta (Meta.word word)] => word == "main_field"
        | _ => false
      ident == "shrinkwrap" && is_main_field
    | _ => false

/-- The `collect_tuple::<(_,)>()` of itertools: `some` exactly when the
list has a single element. -/
def collect_tuple1 {α : Type} (l : List α) : Option α :=
  match l with
  | [a] => some a
  | _ => none

/-- The two `panic!` messages in `find_marked_field` of src/src/ast.rs:
`forgotMark` tags the panic asking whether the user forgot to mark a
field with the attribute, `accidentallyMarkedMultiple` tags the panic
asking whether more than one field was marked by accident. -/
inductive SelectionPanic where
  | forgotMark : SelectionPanic
  | accidentallyMarkedMultiple : SelectionPanic
deriving DecidableEq, Repr

/-- From src/src/ast.rs, `fn find_marked_field`: enumerate the fields,
partition by `is_marked`, then match on the pair of
`collect_tuple(marked)` and `unmarked`. A lone marked field is returned
with the unmarked rest; if `marked` does not collect to a single
element and `unmarked` has exactly one element, that unmarked element
is returned (the `(None, 1)` arm of the source, whose
`collect_tuple().unwrap()` always succeeds there); otherwise the
function panics, choosing the message by whether `marked` was empty.
Panics are modelled as `Except.error`. -/
def find_marked_field (fields : List Field) :
    Except SelectionPanic ((Nat × Field) × List Field) :=
  let parts := fields.enum.partition fun p => is_marked p.2
  let marked := parts.1
  let unmarked := parts.2
  let marked_len := marked.length
  match collect_tuple1 marked, unmarked with
  | some field, _ => Except.ok (field, unmarked.map Prod.snd)
  | none, [u] => Except.ok (u, [])
  | none, _ =>
    if marked_len = 0 then Except.error SelectionPanic.forgotMark
    else Except.error SelectionPanic.accidentallyMarkedMultiple

/-- Modelled from the spec: the reference-point family of a leading
path component, from section 3 of the spec (two ScopePaths are
comparable only if their leading component kind matches: both
absolute-style, or both self-relative, or both parent-relative). The
`Inherited` component, which the spec path model does not mention, is
given its own family. -/
inductive Family where
  | absoluteStyle : Family
  | selfRelative : Family
  | parentRelative : Family
  | privateScope : Family
deriving DecidableEq, Repr

/-- Modelled from the spec: the family of one leading component.
`Pub`, `Crate` and `Mod` components head absolute-style paths. -/
def leading_family (c : PathComponent) : Family :=
  match c with
  | PathComponent.inSelf => Family.selfRelative
  | PathComponent.inSuper => Family.parentRelative
  | PathComponent.inherited => Family.privateScope
  | _ => Family.absoluteStyle

/-- Modelled from the spec: the containment comparison of section 4.2
is described by the spec but absent from src/ (only its result type
`FieldVisibility` is declared in src/src/visibility.rs). Following the
spec wording: when the two normalized paths do not share the same
leading component family the result is `CantDetermine`; otherwise the
inner path is `Visible` iff the outer path is a prefix of it, else
`Restricted`. The spec does not address empty paths; a path with no
leading component offers no reference point, so it compares as
`CantDetermine`. -/
def contains (outer inner : List PathComponent) : FieldVisibility :=
  match outer.head?, inner.head? with
  | some o, some i =>
    if leading_family o = leading_family i then
      if outer <+: inner then FieldVisibility.visible
      else FieldVisibility.restricted
    else FieldVisibility.cantDetermine
  | _, _ => FieldVisibility.cantDetermine

/-- A concrete marked field, for examples and witnesses. -/
def fieldMarked : Field :=
  { attrs := [some (Meta.list "shrinkwrap" [NestedMeta.meta (Meta.word "main_field")])],
    vis := Visibility.inherited, ident := some "addr", ty := "String" }

/-- A concrete unmarked field, for examples and witnesses. -/
def fieldPlain : Field :=
  { attrs := [], vis := Visibility.inherited,
    ident := some "spamminess", ty := "f64" }

/-! Sanity checks of the embedding against the path-conversion test
vectors of src/src/visibility.rs and the behavior of the selector. -/

example : to_path Visibility.public = [PathComponent.pub] := rfl
example : to_path Visibility.crate = [PathComponent.pub, PathComponent.crate] := rfl
example : to_path Visibility.inherited = [PathComponent.inherited] := rfl
example : to_path (Visibility.restricted ["self"]) = [PathComponent.inSelf] := rfl
example : to_path (Visibility.restricted ["super"]) = [PathComponent.inSuper] := rfl
example : to_path (Visibility.restricted ["a", "b", "c"]) =
    [PathComponent.pub, PathComponent.crate, PathComponent.mod "a",
     PathComponent.mod "b", PathComponent.mod "c"] := rfl
example : to_path (Visibility.restricted ["super", "b"]) =
    [PathComponent.inSuper, PathComponent.mod "b"] := rfl
example : is_marked fieldMarked = true := rfl
example : is_marked fieldPlain = false := rfl
example : find_marked_field [fieldPlain, fieldMarked] =
    Except.ok ((1, fieldMarked), [fieldPlain]) := rfl
example : find_marked_field [fieldPlain, fieldPlain] =
    Except.error SelectionPanic.forgotMark := rfl
example : find_marked_field [fieldMarked, fieldMarked] =
    Except.error SelectionPanic.accidentallyMarkedMultiple := rfl
example : contains [PathComponent.pub] [PathComponent.pub, PathComponent.crate] =
    FieldVisibility.visible := rfl
example : contains [PathComponent.pub, PathComponent.crate] [PathComponent.pub] =
    FieldVisibility.restricted := rfl

/-! Helper lemmas about enumeration, filtering and partitioning. -/

/-- Filtering an enumerated list on a predicate of the element and
projecting back to the elements is filtering the original list. -/
theorem filter_enumFrom_map_snd {α : Type} (q : α → Bool) (l : List α) :
    ∀ n, ((List.enumFrom n l).filter fun p => q p.2).map Prod.snd = l.filter q := by
  induction l with
  | nil => intro n; rfl
  | cons a l ih =>
    intro n
    simp only [List.enumFrom, List.filter_cons]
    cases h : q a
    · simp [h, ih]
    · simp [h, ih]

/-- Every member of an enumeration projects to a member of the list. -/
theorem mem_enumFrom_snd {α : Type} {l : List α} :
    ∀ {n : Nat} {p : Nat × α}, p ∈ List.enumFrom n l → p.2 ∈ l := by
  induction l with
  | nil => intro n p hp; simp [List.enumFrom] at hp
  | cons a l ih =>
    intro n p hp
    simp only [List.enumFrom, List.mem_cons] at hp
    rcases hp with h | h
    · simp [h]
    · exact List.mem_cons_of_mem _ (ih h)

/-- A list of pairs whose second projections form a singleton is a
singleton pair. -/
theorem map_snd_eq_singleton {α : Type} {l : List (Nat × α)} {m : α}
    (h : l.map Prod.snd = [m]) : ∃ i, l = [(i, m)] := by
  cases l with
  | nil => simp at h
  | cons p t =>
    cases t with
    | nil =>
      obtain ⟨i, x⟩ := p
      simp at h
      exact ⟨i, by simp [h]⟩
    | cons q t2 => simp at h

/-- The negated pair predicate produced by `List.partition` coincides
with testing the negated predicate on the second projection. -/
theorem comp_not_snd :
    (not ∘ fun p : Nat × Field => is_marked p.2) =
      (fun p : Nat × Field => !is_marked p.2) := rfl

/-- When the marked fields form exactly the singleton `[m]`, the
selector returns `m` (at its enumeration index) along with all the
unmarked fields in order. -/
theorem select_unique_marked (fields : List Field) (m : Field)
    (h : fields.filter (fun f => is_marked f) = [m]) :
    ∃ i, find_marked_field fields =
      Except.ok ((i, m), fields.filter fun f => !is_marked f) := by
  have hms : (fields.enum.filter fun p => is_marked p.2).map Prod.snd = [m] := by
    rw [show fields.enum = List.enumFrom 0 fields from rfl,
      filter_enumFrom_map_snd]
    exact h
  obtain ⟨i, hmarked⟩ := map_snd_eq_singleton hms
  have hun : (fields.enum.filter (not ∘ fun p => is_marked p.2)).map Prod.snd
      = fields.filter fun f => !is_marked f := by
    rw [comp_not_snd]
    exact filter_enumFrom_map_snd (fun f => !is_marked f) fields 0
  refine ⟨i, ?_⟩
  simp only [find_marked_field, List.partition_eq_filter_filter]
  rw [hmarked]
  simp [collect_tuple1, hun]

/-- When no field is marked and more than one field is present, the
selector panics with the forgot-to-mark message. -/
theorem select_no_marked (fields : List Field)
    (hlen : 1 < fields.length)
    (hall : ∀ f ∈ fields, is_marked f = false) :
    find_marked_field fields = Except.error SelectionPanic.forgotMark := by
  have hm : fields.enum.filter (fun p => is_marked p.2) = [] := by
    rw [List.filter_eq_nil_iff]
    intro p hp
    simp [hall p.2 (mem_enumFrom_snd hp)]
  have hu : fields.enum.filter (not ∘ fun p => is_marked p.2) = fields.enum := by
    rw [List.filter_eq_self]
    intro p hp
    simp [Function.comp, hall p.2 (mem_enumFrom_snd hp)]
  have hlen2 : 1 < fields.enum.length := by rw [List.enum_length]; exact hlen
  obtain ⟨a, b, t, he⟩ : ∃ a b t, fields.enum = a :: b :: t := by
    cases he : fields.enum with
    | nil => rw [he] at hlen2; simp at hlen2
    | cons a t =>
      cases t with
      | nil => rw [he] at hlen2; simp at hlen2
      | cons b t2 => exact ⟨a, b, t2, rfl⟩
  simp only [find_marked_field, List.partition_eq_filter_filter]
  rw [hm, hu, he]
  simp [collect_tuple1]

/-- When at least two fields are marked and the number of unmarked
fields is not exactly one, the selector panics with the
multiply-marked message. -/
theorem select_multi_marked (fields : List Field)
    (h2 : 2 ≤ (fields.filter fun f => is_marked f).length)
    (hu : (fields.filter fun f => !is_marked f).length ≠ 1) :
    find_marked_field fields =
      Except.error SelectionPanic.accidentallyMarkedMultiple := by
  have hms : (fields.enum.filter fun p => is_marked p.2).map Prod.snd
      = fields.filter fun f => is_marked f := by
    rw [show fields.enum = List.enumFrom 0 fields from rfl,
      filter_enumFrom_map_snd]
  have hlenm : 2 ≤ (fields.enum.filter fun p => is_marked p.2).length := by
    have := congrArg List.length hms
    rw [List.length_map] at this
    omega
  obtain ⟨a, b, t, he⟩ :
      ∃ a b t, (fields.enum.filter fun p => is_marked p.2) = a :: b :: t := by
    cases hm : (fields.enum.filter fun p => is_marked p.2) with
    | nil => rw [hm] at hlenm; simp at hlenm
    | cons a t =>
      cases t with
      | nil => rw [hm] at hlenm; simp at hlenm
      | cons b t2 => exact ⟨a, b, t2, rfl⟩
  have hus : (fields.enum.filter (not ∘ fun p => is_marked p.2)).map Prod.snd
      = fields.filter fun f => !is_marked f := by
    rw [comp_not_snd]
    exact filter_enumFrom_map_snd (fun f => !is_marked f) fields 0
  have hulen : (fields.enum.filter (not ∘ fun p => is_marked p.2)).length ≠ 1 := by
    have := congrArg List.length hus
    rw [List.length_map] at this
    omega
  simp only [find_marked_field, List.partition_eq_filter_filter]
  rw [he]
  cases hue : (fields.enum.filter (not ∘ fun p => is_marked p.2)) with
  | nil => simp [collect_tuple1]
  | cons u us =>
    cases us with
    | nil => rw [hue] at hulen; simp at hulen
    | cons v vs => simp [collect_tuple1]

/-! Claim theorems. -/

/-- C1: the claim states that every field sequence with two or more
marked fields makes the selector fail with the multiply-marked
diagnostic, regardless of the number of unmarked fields. The code
violates this: with two marked fields and exactly one unmarked field,
the `(None, 1)` arm of `find_marked_field` fires first and silently
returns the unmarked field. This theorem evaluates the selector at
that failing input. -/
theorem claim_c1_two_marked_one_unmarked_returns_unmarked :
    find_marked_field [fieldMarked, fieldMarked, fieldPlain] =
      Except.ok ((2, fieldPlain), []) := rfl

/-- C2, counterexample: the claim states that the selector reports
failures as ordinary return values and never panics. At the concrete
input of two unmarked fields the selector panics (modelled as
`Except.error`) with the forgot-to-mark message. -/
theorem claim_c2_counterexample :
    find_marked_field [fieldPlain, fieldPlain] =
      Except.error SelectionPanic.forgotMark := rfl

/-- C2, amended: the Visibility Path Analyzer reports its results as
ordinary return values, but the Field Selector reports its failure
cases by panicking (a compile-time panic of the procedural macro,
modelled as `Except.error`) rather than returning an error value: with
several fields and none marked it panics with the forgot-to-mark
message, and with two or more marked fields (and not exactly one
unmarked field) it panics with the multiply-marked message. -/
theorem claim_c2_selector_failures_panic (fields : List Field) :
    (1 < fields.length → (∀ f ∈ fields, is_marked f = false) →
      find_marked_field fields = Except.error SelectionPanic.forgotMark)
    ∧ (2 ≤ (fields.filter fun f => is_marked f).length →
       (fields.filter fun f => !is_marked f).length ≠ 1 →
      find_marked_field fields =
        Except.error SelectionPanic.accidentallyMarkedMultiple) :=
  ⟨fun hlen hall => select_no_marked fields hlen hall,
   fun h2 hu => select_multi_marked fields h2 hu⟩

/-- C2, witness: the amended theorem applied at two concrete inputs,
one for each panic family. -/
theorem claim_c2_witness :
    find_marked_field [fieldPlain, fieldPlain] =
      Except.error SelectionPanic.forgotMark
    ∧ find_marked_field [fieldMarked, fieldMarked] =
      Except.error SelectionPanic.accidentallyMarkedMultiple :=
  ⟨(claim_c2_selector_failures_panic [fieldPlain, fieldPlain]).1
      (by decide) (by decide),
   (claim_c2_selector_failures_panic [fieldMarked, fieldMarked]).2
      (by decide) (by decide)⟩

/-- C3, counterexample: the claim states that normalizing the private
scope yields the same leading component as normalizing a restricted
path rooted at `self`. In the code the private scope normalizes to the
dedicated component `Inherited`, which differs from the `InSelf`
component heading a self-rooted restricted path. -/
theorem claim_c3_counterexample :
    to_path Visibility.inherited = [PathComponent.inherited]
    ∧ to_path (Visibility.restricted ["self"]) = [PathComponent.inSelf]
    ∧ PathComponent.inherited ≠ PathComponent.inSelf :=
  ⟨rfl, rfl, by decide⟩

/-- C3, amended: normalize applied to the private scope (no explicit
visibility modifier) returns the one-component path `[Inherited]`, a
dedicated private component that is distinct from the `InSelf` leading
component produced for a restricted path whose first segment is
`self`. -/
theorem claim_c3_private_normalizes_to_inherited :
    to_path Visibility.inherited = [PathComponent.inherited]
    ∧ (∀ rest : List String,
        to_path (Visibility.restricted ("self" :: rest)) =
          PathComponent.inSelf :: rest.map PathComponent.mod)
    ∧ PathComponent.inherited ≠ PathComponent.inSelf := by
  refine ⟨rfl, ?_, by decide⟩
  intro rest
  simp [to_path, to_path_restricted]

/-- C4: for every field sequence in which exactly one field is marked,
the selector returns that marked field (at some enumeration index),
with the unmarked fields as the remainder; and for every permutation
of the sequence the same field is selected, so permuting unmarked
fields around the single marked field never changes which field is
selected. -/
theorem claim_c4_unique_marked_selected (fields : List Field) (m : Field)
    (h : fields.filter (fun f => is_marked f) = [m]) :
    (∃ i, find_marked_field fields =
        Except.ok ((i, m), fields.filter fun f => !is_marked f))
    ∧ ∀ fields2 : List Field, fields2.Perm fields →
        ∃ j, find_marked_field fields2 =
          Except.ok ((j, m), fields2.filter fun f => !is_marked f) := by
  constructor
  · exact select_unique_marked fields m h
  · intro fields2 hp
    apply select_unique_marked
    have hperm := hp.filter (fun f => is_marked f)
    rw [h] at hperm
    exact List.perm_singleton.mp hperm

/-- C4, witness: the theorem applied to a two-field sequence with one
marked field. -/
theorem claim_c4_witness :
    (∃ i, find_marked_field [fieldPlain, fieldMarked] =
        Except.ok ((i, fieldMarked),
          List.filter (fun f => !is_marked f) [fieldPlain, fieldMarked]))
    ∧ ∀ fields2 : List Field, fields2.Perm [fieldPlain, fieldMarked] →
        ∃ j, find_marked_field fields2 =
          Except.ok ((j, fieldMarked), fields2.filter fun f => !is_marked f) :=
  claim_c4_unique_marked_selected [fieldPlain, fieldMarked] fieldMarked rfl

/-- C5: normalize maps the public visibility to `[Pub]`, the crate
visibility to `[Pub, Crate]`, and a restricted path whose first
segment is neither `self` nor `super` (an absolute path) to
`[Pub, Crate, Mod first]` followed by the remaining segments as `Mod`
components. -/
theorem claim_c5_absolute_normalization (first : String) (rest : List String)
    (h1 : first ≠ "self") (h2 : first ≠ "super") :
    to_path Visibility.public = [PathComponent.pub]
    ∧ to_path Visibility.crate = [PathComponent.pub, PathComponent.crate]
    ∧ to_path (Visibility.restricted (first :: rest)) =
        PathComponent.pub :: PathComponent.crate :: PathComponent.mod first
          :: rest.map PathComponent.mod := by
  refine ⟨rfl, rfl, ?_⟩
  simp [to_path, to_path_restricted, h1, h2]

/-- C5, witness: the theorem applied to the absolute path `a::b::c`. -/
theorem claim_c5_witness :
    to_path Visibility.public = [PathComponent.pub]
    ∧ to_path Visibility.crate = [PathComponent.pub, PathComponent.crate]
    ∧ to_path (Visibility.restricted ["a", "b", "c"]) =
        PathComponent.pub :: PathComponent.crate :: PathComponent.mod "a"
          :: List.map PathComponent.mod ["b", "c"] :=
  claim_c5_absolute_normalization "a" ["b", "c"] (by decide) (by decide)

/-- C6: normalize maps a restricted path whose first segment is `self`
to `[InSelf]` followed by the remaining segments as `Mod` components,
and one whose first segment is `super` to `[InSuper]` followed by the
remaining segments as `Mod` components. -/
theorem claim_c6_relative_normalization (rest : List String) :
    to_path (Visibility.restricted ("self" :: rest)) =
      PathComponent.inSelf :: rest.map PathComponent.mod
    ∧ to_path (Visibility.restricted ("super" :: rest)) =
      PathComponent.inSuper :: rest.map PathComponent.mod := by
  constructor <;> simp [to_path, to_path_restricted]

/-- C7: for every field sequence of length greater than one in which
no field is marked, the selector fails with the ambiguous
(forgot-to-mark) diagnostic. -/
theorem claim_c7_ambiguous (fields : List Field)
    (hlen : 1 < fields.length)
    (hall : ∀ f ∈ fields, is_marked f = false) :
    find_marked_field fields = Except.error SelectionPanic.forgotMark :=
  select_no_marked fields hlen hall

/-- C7, witness: the theorem applied to two unmarked fields. -/
theorem claim_c7_witness :
    find_marked_field [fieldPlain, fieldPlain] =
      Except.error SelectionPanic.forgotMark :=
  claim_c7_ambiguous [fieldPlain, fieldPlain] (by decide) (by decide)

/-- C8: for every field sequence of length exactly one, the selector
returns that single field (at index zero), whether or not it is
marked. -/
theorem claim_c8_singleton (f : Field) :
    find_marked_field [f] = Except.ok ((0, f), []) := by
  simp only [find_marked_field, List.partition_eq_filter_filter]
  cases h : is_marked f <;>
    simp [List.enum, List.enumFrom, List.filter, h, collect_tuple1, Function.comp]

/-- C9: for every pair of normalized scope paths whose leading
components belong to different families, the containment comparison
returns `CantDetermine` in both argument orders; in particular it never
resolves `self` or `super` against an absolute root, it refuses. -/
theorem claim_c9_cross_family_indeterminate
    (outer inner : List PathComponent) (o i : PathComponent)
    (ho : outer.head? = some o) (hi : inner.head? = some i)
    (hfam : leading_family o ≠ leading_family i) :
    contains outer inner = FieldVisibility.cantDetermine
    ∧ contains inner outer = FieldVisibility.cantDetermine := by
  refine ⟨?_, ?_⟩ <;> unfold contains
  · rw [ho, hi]
    simp [hfam]
  · rw [hi, ho]
    simp [Ne.symm hfam]

/-- C9, witness: a self-relative path against an absolute path, in
both directions. -/
theorem claim_c9_witness :
    contains [PathComponent.inSelf]
      [PathComponent.pub, PathComponent.crate, PathComponent.mod "a"] =
      FieldVisibility.cantDetermine
    ∧ contains [PathComponent.pub, PathComponent.crate, PathComponent.mod "a"]
      [PathComponent.inSelf] = FieldVisibility.cantDetermine :=
  claim_c9_cross_family_indeterminate
    [PathComponent.inSelf]
    [PathComponent.pub, PathComponent.crate, PathComponent.mod "a"]
    PathComponent.inSelf PathComponent.pub rfl rfl (by decide)

/-- C10: normalizing a restricted scope whose path has zero segments
returns the empty component path rather than failing, and this empty
path is a distinct normalized form: no other scope normalizes to it. -/
theorem claim_c10_empty_restricted (v : Visibility) :
    to_path v = [] ↔ v = Visibility.restricted [] := by
  cases v with
  | public => simp [to_path]
  | crate => simp [to_path]
  | inherited => simp [to_path]
  | restricted segs =>
    cases segs with
    | nil => simp [to_path, to_path_restricted]
    | cons s rest =>
      simp only [to_path, to_path_restricted]
      constructor
      · intro h
        rw [List.append_eq_nil] at h
        rcases h with ⟨h1, _⟩
        split at h1
        · simp at h1
        · split at h1 <;> simp at h1
      · intro h
        simp at h

end Shrinkwrap
